import Mathlib

/-!
Verification of the Kafka relay engine in `src/_kafka.py`.

The module bridges an aiokafka consumer/producer and two in-process
`asyncio.Queue`s.  We give a shallow embedding: the pure throughput
tracker `log_speed` becomes a Lean function (time modelled as `ℚ`,
mirroring the fractional seconds of `time.time()`; the queue argument is
threaded through explicitly because the embedding is state-passing), and
each iteration of the two relay loops (`receive_messages` /
`send_messages`, plus their class-method twins `consume_messages` /
`produce_messages`) becomes a function from the cycle's inputs to the
list of observable events the iteration performs, in program order.

External-collaborator semantics used by the embedding, from the aiokafka
client the source imports:
* `AIOKafkaConsumer.getmany` returns a dict of per-partition record
  batches and advances the consumer's position past every returned
  record, for all returned partitions, before the caller's loop body
  runs.
* `AIOKafkaConsumer.commit()` with no argument commits the current
  consumed positions of all subscribed partitions, not only the
  partition whose records were just processed.
* `AIOKafkaProducer.send` is a coroutine that completes once the message
  has been appended into the producer's internal send buffer; it returns
  a future that resolves on broker acknowledgment.  Awaiting `send`
  therefore does not wait for the acknowledgment; `send_and_wait` would.
* `asyncio.gather` starts its coroutines in argument order, and
  `asyncio.Queue.put` wakes pending waiters in FIFO order, so the
  gathered `put` calls of one batch insert in list order.
-/

/-- A record delivered by the broker client: its position in the
partition's log and its (already deserialized) payload, modelled as a
number since no relay inspects it. -/
structure ConsumerRecord where
  offset : Nat
  value : Nat
deriving DecidableEq

/-- The content of the throughput log line that `log_speed` emits when an
interval boundary has been crossed. -/
structure SpeedLog where
  topic : String
  qsize : Nat
  counter : Nat
  delta_time : ℚ
  speed : ℚ
deriving DecidableEq

/-- Observable events of one relay-loop iteration, in program order.
`ackAwait` corresponds to awaiting the delivery future returned by
`AIOKafkaProducer.send` (the broker's all-replica acknowledgment); the
source never performs it, but the constructor makes the property
"acknowledged before marked done" expressible. -/
inductive Ev where
  | logPartition (tp n : Nat)
  | logDone
  | enqueue (tp : Nat) (rec : ConsumerRecord)
  | commit (positions : List (Nat × Nat))
  | speed (counter : Nat) (start_time : ℚ)
  | sleep (secs : Nat)
  | dequeue (v : Nat)
  | send (topic : String) (v : Nat)
  | ackAwait (topic : String) (v : Nat)
  | taskDone
deriving DecidableEq

/-- Loop state of `send_messages` / `produce_messages`: the window start
`start_time`, the counter `messages_sent`, and the contents of the send
queue (payloads modelled as numbers). -/
structure OutState where
  start_time : ℚ
  messages_sent : Nat
  queue : List Nat
deriving DecidableEq

/-- `log_speed` from `src/_kafka.py`.  `delta_time = time.time() -
start_time`; if `delta_time < interval` the input pair is returned
unchanged, otherwise the speed `counter / delta_time` is logged together
with the queue depth and `(time.time(), 0)` is returned.  The embedding
passes the current clock as `now`, threads the queue state through (the
function's only queue operation is reading `qsize()`), and returns the
emitted log record, if any, instead of writing to the logger.  The
source's default `interval` is `60`; callers of the embedding pass it
explicitly. -/
def log_speed (counter : Nat) (start_time : ℚ) (_queue : List Nat)
    (topic : String) (now : ℚ) (interval : ℚ) :
    (ℚ × Nat) × List Nat × Option SpeedLog :=
  let delta_time := now - start_time
  if delta_time < interval then
    ((start_time, counter), _queue, none)
  else
    ((now, 0), _queue,
      some ⟨topic, _queue.length, counter, delta_time, (counter : ℚ) / delta_time⟩)

/-- Concatenation of the event lists produced for each element of a
list, in order — the shape of a `for` loop body over a batch. -/
def concatMap {α β : Type} (f : α → List β) : List α → List β
  | [] => []
  | x :: xs => f x ++ concatMap f xs

/-- The consumer's per-partition positions after `getmany` has returned
`batch`: for every partition in the result, one past the offset of its
last returned record.  These are the offsets a subsequent no-argument
`commit()` commits. -/
def consumedPositions (batch : List (Nat × List ConsumerRecord)) :
    List (Nat × Nat) :=
  batch.filterMap fun pb =>
    match pb.2.getLast? with
    | some r => some (pb.1, r.offset + 1)
    | none => none

/-- Body of the per-partition `for` loop of `receive_messages`, given the
positions `ps` that `commit()` will commit: log the partition's batch
size, enqueue each record (the gathered `put`s complete in list order),
log "done", then commit. -/
def receiveSeg (ps : List (Nat × Nat)) (pb : Nat × List ConsumerRecord) :
    List Ev :=
  Ev.logPartition pb.1 pb.2.length ::
    (pb.2.map fun r => Ev.enqueue pb.1 r) ++ [Ev.logDone, Ev.commit ps]

/-- One iteration of the `while` loop of `receive_messages`: `getmany`
yields `batch`; for each partition in it, run `receiveSeg`.  Every
`commit()` in the iteration commits the positions of the whole fetched
batch, per aiokafka semantics. -/
def receiveCycle (batch : List (Nat × List ConsumerRecord)) : List Ev :=
  concatMap (receiveSeg (consumedPositions batch)) batch

/-- The `receive_messages` loop run over a finite schedule of poll
results, one per iteration until the shutdown event is observed set. -/
def receiveLoop (polls : List (List (Nat × List ConsumerRecord))) : List Ev :=
  concatMap receiveCycle polls

/-- Body of the per-partition `for` loop of
`AioKafkaEngine.consume_messages`: enqueue each record, commit, then log
the partition's batch size (no "done" line). -/
def consumeSeg (ps : List (Nat × Nat)) (pb : Nat × List ConsumerRecord) :
    List Ev :=
  (pb.2.map fun r => Ev.enqueue pb.1 r) ++
    [Ev.commit ps, Ev.logPartition pb.1 pb.2.length]

/-- One iteration of the `while` loop of
`AioKafkaEngine.consume_messages`. -/
def consumeCycle (batch : List (Nat × List ConsumerRecord)) : List Ev :=
  concatMap (consumeSeg (consumedPositions batch)) batch

/-- The `consume_messages` loop over a finite schedule of poll
results. -/
def consumeLoop (polls : List (List (Nat × List ConsumerRecord))) : List Ev :=
  concatMap consumeCycle polls

/-- One iteration of the `while` loop of `send_messages`: call
`log_speed` and adopt its returned pair; if the queue is empty, sleep a
hard-coded `1` second and continue; otherwise `get` one message, `send`
it to the producer (which completes once buffered — the delivery future
is never awaited), call `task_done`, and increment the counter. -/
def sendCycle (topic : String) (st : OutState) (now interval : ℚ) :
    OutState × List Ev :=
  let r := log_speed st.messages_sent st.start_time st.queue topic now interval
  let start_time := r.1.1
  let messages_sent := r.1.2
  let q := r.2.1
  match q with
  | [] =>
      (⟨start_time, messages_sent, []⟩,
        [Ev.speed st.messages_sent st.start_time, Ev.sleep 1])
  | v :: rest =>
      (⟨start_time, messages_sent + 1, rest⟩,
        [Ev.speed st.messages_sent st.start_time, Ev.dequeue v,
          Ev.send topic v, Ev.taskDone])

/-- The `send_messages` loop over a finite schedule of clock readings,
one per iteration until the shutdown event is observed set; returns the
final state and the concatenated event trace. -/
def sendLoop (topic : String) (st : OutState) (times : List ℚ)
    (interval : ℚ) : OutState × List Ev :=
  match times with
  | [] => (st, [])
  | now :: rest =>
      let r := sendCycle topic st now interval
      let r2 := sendLoop topic r.1 rest interval
      (r2.1, r.2 ++ r2.2)

/-- One iteration of the `while` loop of
`AioKafkaEngine.produce_messages`; transcribed from the class method,
which repeats the algorithm of `send_messages` on `self.send_queue` and
`self.producer`. -/
def produceCycle (topic : String) (st : OutState) (now interval : ℚ) :
    OutState × List Ev :=
  let r := log_speed st.messages_sent st.start_time st.queue topic now interval
  let start_time := r.1.1
  let messages_sent := r.1.2
  let q := r.2.1
  match q with
  | [] =>
      (⟨start_time, messages_sent, []⟩,
        [Ev.speed st.messages_sent st.start_time, Ev.sleep 1])
  | v :: rest =>
      (⟨start_time, messages_sent + 1, rest⟩,
        [Ev.speed st.messages_sent st.start_time, Ev.dequeue v,
          Ev.send topic v, Ev.taskDone])

/-- The `produce_messages` loop over a finite schedule of clock
readings. -/
def produceLoop (topic : String) (st : OutState) (times : List ℚ)
    (interval : ℚ) : OutState × List Ev :=
  match times with
  | [] => (st, [])
  | now :: rest =>
      let r := produceCycle topic st now interval
      let r2 := produceLoop topic r.1 rest interval
      (r2.1, r.2 ++ r2.2)

/-- Number of events in a trace satisfying `p`. -/
def countEv (p : Ev → Bool) : List Ev → Nat
  | [] => 0
  | e :: tr => (if p e then 1 else 0) + countEv p tr

/-- Recognizer for Speed Monitor invocations. -/
def isSpeed : Ev → Bool
  | Ev.speed _ _ => true
  | _ => false

/-- Recognizer for sleeps. -/
def isSleep : Ev → Bool
  | Ev.sleep _ => true
  | _ => false

/-- Recognizer for queue dequeues. -/
def isDequeue : Ev → Bool
  | Ev.dequeue _ => true
  | _ => false

/-- Recognizer for producer publishes. -/
def isSend : Ev → Bool
  | Ev.send _ _ => true
  | _ => false

/-- Recognizer for offset commits. -/
def isCommit : Ev → Bool
  | Ev.commit _ => true
  | _ => false

/-- The payloads enqueued into the receive queue by a trace, in order. -/
def enqueuedValues : List Ev → List Nat
  | [] => []
  | Ev.enqueue _ r :: tr => r.value :: enqueuedValues tr
  | _ :: tr => enqueuedValues tr

/-- The commit calls of a trace, in order, each with the positions it
commits. -/
def commitCalls : List Ev → List (List (Nat × Nat))
  | [] => []
  | Ev.commit ps :: tr => ps :: commitCalls tr
  | _ :: tr => commitCalls tr

/-- Events that are not log-sink writes.  Per the spec the log sink is
one-way observability with no feedback into the engine, so behavioural
comparison of the two relay implementations is over these events. -/
def nonLogEv : Ev → Bool
  | Ev.logPartition _ _ => false
  | Ev.logDone => false
  | _ => true

/-- A trace restricted to its non-log events. -/
def nonLog (tr : List Ev) : List Ev :=
  tr.filter nonLogEv

/-- Whether a committed position set covers offset `off` of partition
`tp`: committing position `p` for `tp` marks every offset below `p` as
processed. -/
def covers (ps : List (Nat × Nat)) (tp off : Nat) : Bool :=
  ps.any fun p => p.1 == tp && decide (off < p.2)

/-- The deliver-before-commit property of a trace: every enqueue of a
record occurs strictly before every commit whose positions cover that
record's offset on its partition. -/
def enqueueBeforeCoveringCommit (tr : List Ev) : Bool :=
  (List.range tr.length).all fun i =>
    (List.range tr.length).all fun j =>
      match tr[i]?, tr[j]? with
      | some (Ev.enqueue tp r), some (Ev.commit ps) =>
          !covers ps tp r.offset || decide (i < j)
      | _, _ => true

/-- The acknowledge-before-done property of a trace: every `task_done`
is preceded by an await of the broker's delivery acknowledgment. -/
def ackBeforeTaskDone (tr : List Ev) : Bool :=
  (List.range tr.length).all fun j =>
    match tr[j]? with
    | some Ev.taskDone =>
        (List.range j).any fun i =>
          match tr[i]? with
          | some (Ev.ackAwait _ _) => true
          | _ => false
    | _ => true

/-- Total number of records in a poll result, the quantity bounded by
`getmany`'s `max_records` argument. -/
def batchTotal (batch : List (Nat × List ConsumerRecord)) : Nat :=
  (batch.map fun pb => pb.2.length).sum

/-- `log_speed` threads the queue through unchanged: its only queue
operation is reading the depth. -/
theorem log_speed_queue (counter : Nat) (start_time : ℚ) (q : List Nat)
    (topic : String) (now interval : ℚ) :
    (log_speed counter start_time q topic now interval).2.1 = q := by
  by_cases h : now - start_time < interval
  · simp only [log_speed]
    rw [if_pos h]
  · simp only [log_speed]
    rw [if_neg h]

/-- Equation for `sendCycle` when the send queue is empty: the cycle
sleeps and carries the Speed Monitor's pair forward. -/
theorem sendCycle_nil (topic : String) (st : OutState) (now interval : ℚ)
    (h : st.queue = []) :
    sendCycle topic st now interval =
      (⟨(log_speed st.messages_sent st.start_time st.queue topic now interval).1.1,
        (log_speed st.messages_sent st.start_time st.queue topic now interval).1.2,
        []⟩,
        [Ev.speed st.messages_sent st.start_time, Ev.sleep 1]) := by
  unfold sendCycle
  dsimp only
  rw [log_speed_queue, h]

/-- Equation for `sendCycle` when the send queue is nonempty: one
dequeue, one send, one task_done, counter bumped by one. -/
theorem sendCycle_cons (topic : String) (st : OutState) (now interval : ℚ)
    (v : Nat) (rest : List Nat) (h : st.queue = v :: rest) :
    sendCycle topic st now interval =
      (⟨(log_speed st.messages_sent st.start_time st.queue topic now interval).1.1,
        (log_speed st.messages_sent st.start_time st.queue topic now interval).1.2 + 1,
        rest⟩,
        [Ev.speed st.messages_sent st.start_time, Ev.dequeue v,
          Ev.send topic v, Ev.taskDone]) := by
  unfold sendCycle
  dsimp only
  rw [log_speed_queue, h]

/-- Claim C10: the Speed Monitor leaves the queue it is given unchanged
(it only reads the depth), and its returned pair is always either the
input pair `(start_time, counter)` unchanged or `(now, 0)` — the
returned counter is never any value other than the input counter or
zero. -/
theorem c10_speed_monitor_frame (counter : Nat) (start_time : ℚ)
    (q : List Nat) (topic : String) (now interval : ℚ) :
    (log_speed counter start_time q topic now interval).2.1 = q ∧
    ((log_speed counter start_time q topic now interval).1 = (start_time, counter) ∨
      (log_speed counter start_time q topic now interval).1 = (now, 0)) := by
  by_cases h : now - start_time < interval
  · refine ⟨?_, Or.inl ?_⟩ <;> simp only [log_speed] <;> rw [if_pos h]
  · refine ⟨?_, Or.inr ?_⟩ <;> simp only [log_speed] <;> rw [if_neg h]

/-- Claim C3: for every counter, window start, queue and label, if the
elapsed time since the window start is below the interval then
`log_speed` returns its input pair unchanged, and calling it again on
its own output within the same window again returns that pair. -/
theorem c3_speed_monitor_noop_within_window (counter : Nat)
    (start_time : ℚ) (q q2 : List Nat) (topic : String)
    (now now2 interval : ℚ) (h : now - start_time < interval)
    (h2 : now2 - start_time < interval) :
    (log_speed counter start_time q topic now interval).1 =
      (start_time, counter) ∧
    (log_speed (log_speed counter start_time q topic now interval).1.2
        (log_speed counter start_time q topic now interval).1.1
        q2 topic now2 interval).1 = (start_time, counter) := by
  have h1 : (log_speed counter start_time q topic now interval).1 =
      (start_time, counter) := by
    simp only [log_speed]
    rw [if_pos h]
  refine ⟨h1, ?_⟩
  rw [h1]
  simp only [log_speed]
  rw [if_pos h2]

/-- Witness for C3 at a concrete input inside the window. -/
theorem c3_witness :
    (log_speed 5 0 [1] "t" 10 60).1 = (0, 5) ∧
    (log_speed (log_speed 5 0 [1] "t" 10 60).1.2
        (log_speed 5 0 [1] "t" 10 60).1.1 [2] "t" 20 60).1 = (0, 5) :=
  c3_speed_monitor_noop_within_window 5 0 [1] [2] "t" 10 20 60
    (by norm_num) (by norm_num)

/-- Claim C5: with a positive interval, the throughput division of
`log_speed` is reached only when the elapsed time is at least the
interval — so the logged record's denominator is at least the interval
and strictly positive, and no log (hence no division) is produced while
the elapsed time is below the interval. -/
theorem c5_division_guarded_by_interval (counter : Nat) (start_time : ℚ)
    (q : List Nat) (topic : String) (now interval : ℚ)
    (hpos : 0 < interval) :
    (now - start_time < interval →
      (log_speed counter start_time q topic now interval).2.2 = none) ∧
    ∀ rec, (log_speed counter start_time q topic now interval).2.2 = some rec →
      interval ≤ rec.delta_time ∧ 0 < rec.delta_time ∧
        rec.speed = (counter : ℚ) / rec.delta_time := by
  constructor
  · intro h
    simp only [log_speed]
    rw [if_pos h]
  · intro rec hrec
    by_cases h : now - start_time < interval
    · rw [show (log_speed counter start_time q topic now interval).2.2 = none by
        simp only [log_speed]; rw [if_pos h]] at hrec
      cases hrec
    · have heq : (log_speed counter start_time q topic now interval).2.2 =
          some ⟨topic, q.length, counter, now - start_time,
            (counter : ℚ) / (now - start_time)⟩ := by
        simp only [log_speed]
        rw [if_neg h]
      rw [heq] at hrec
      cases hrec
      exact ⟨le_of_not_lt h, lt_of_lt_of_le hpos (le_of_not_lt h), rfl⟩

/-- Witness for C5 at a concrete input: a call before the boundary emits
no log record. -/
theorem c5_witness : (log_speed 7 0 [] "t" 30 60).2.2 = none :=
  (c5_division_guarded_by_interval 7 0 [] "t" 30 60 (by norm_num)).1
    (by norm_num)

/-- Claim C1 fails on the code: evaluating `receive_messages`' cycle on a
batch of two partitions (offset 5 on partition 0, offset 7 on partition
1) shows the first commit call — at trace position 3, issued right after
partition 0's enqueues — already committing position 8 for partition 1,
thereby covering offset 7 before that record's enqueue at trace position
5.  The deliver-before-commit property is therefore violated for
multi-partition batches. -/
theorem c1_commit_observed_before_enqueue :
    receiveCycle [(0, [⟨5, 100⟩]), (1, [⟨7, 200⟩])] =
      [Ev.logPartition 0 1, Ev.enqueue 0 ⟨5, 100⟩, Ev.logDone,
        Ev.commit [(0, 6), (1, 8)],
        Ev.logPartition 1 1, Ev.enqueue 1 ⟨7, 200⟩, Ev.logDone,
        Ev.commit [(0, 6), (1, 8)]] ∧
    enqueueBeforeCoveringCommit
      (receiveCycle [(0, [⟨5, 100⟩]), (1, [⟨7, 200⟩])]) = false :=
  ⟨rfl, rfl⟩

/-- Claim C2 fails on the code: one dequeuing cycle of `send_messages`
ends in `task_done` with no await of the broker's delivery
acknowledgment anywhere in the cycle — `producer.send` completes once
the message is buffered, and its delivery future is discarded. -/
theorem c2_taskdone_without_ack_await :
    (sendCycle "t" ⟨0, 0, [5]⟩ 0 60).2 =
      [Ev.speed 0 0, Ev.dequeue 5, Ev.send "t" 5, Ev.taskDone] ∧
    ackBeforeTaskDone ((sendCycle "t" ⟨0, 0, [5]⟩ 0 60).2) = false := by
  have h : (sendCycle "t" ⟨0, 0, [5]⟩ 0 60).2 =
      [Ev.speed 0 0, Ev.dequeue 5, Ev.send "t" 5, Ev.taskDone] := by
    norm_num [sendCycle, log_speed]
  exact ⟨h, by rw [h]; rfl⟩

/-- Claim C4: on a poll returning three records on one partition at
offsets 10, 11, 12 under a batch size of at least 3, the inbound cycle
enqueues the three record values in offset order and issues exactly one
commit call, committing position 13 for that partition. -/
theorem c4_three_records_single_partition (a b c batch_size : Nat)
    (h : 3 ≤ batch_size) :
    batchTotal [(0, [⟨10, a⟩, ⟨11, b⟩, ⟨12, c⟩])] ≤ batch_size ∧
    enqueuedValues (receiveCycle [(0, [⟨10, a⟩, ⟨11, b⟩, ⟨12, c⟩])]) =
      [a, b, c] ∧
    countEv isCommit (receiveCycle [(0, [⟨10, a⟩, ⟨11, b⟩, ⟨12, c⟩])]) = 1 ∧
    commitCalls (receiveCycle [(0, [⟨10, a⟩, ⟨11, b⟩, ⟨12, c⟩])]) =
      [[(0, 13)]] :=
  ⟨h, rfl, rfl, rfl⟩

/-- Witness for C4 at concrete values and the smallest admissible batch
size. -/
theorem c4_witness :
    batchTotal [(0, [⟨10, 1⟩, ⟨11, 2⟩, ⟨12, 3⟩])] ≤ 3 ∧
    enqueuedValues (receiveCycle [(0, [⟨10, 1⟩, ⟨11, 2⟩, ⟨12, 3⟩])]) =
      [1, 2, 3] ∧
    countEv isCommit (receiveCycle [(0, [⟨10, 1⟩, ⟨11, 2⟩, ⟨12, 3⟩])]) = 1 ∧
    commitCalls (receiveCycle [(0, [⟨10, 1⟩, ⟨11, 2⟩, ⟨12, 3⟩])]) =
      [[(0, 13)]] :=
  c4_three_records_single_partition 1 2 3 3 (by norm_num)

/-- Claim C6: an inbound cycle whose poll returns an empty result
performs no commit call, enqueues nothing, produces no event at all (in
particular no error), and the loop simply proceeds to the remaining
cycles. -/
theorem c6_empty_poll_is_harmless
    (rest : List (List (Nat × List ConsumerRecord))) :
    receiveCycle [] = [] ∧
    countEv isCommit (receiveCycle []) = 0 ∧
    enqueuedValues (receiveCycle []) = [] ∧
    receiveLoop ([] :: rest) = receiveLoop rest :=
  ⟨rfl, rfl, rfl, rfl⟩

/-- Claim C7: an outbound cycle that finds the send queue empty performs
exactly one sleep, of the hard-coded one-second duration, no dequeue and
no publish, and the loop then runs the remaining cycles from the
resulting state. -/
theorem c7_empty_send_queue_sleeps_once (topic : String) (st : OutState)
    (now interval : ℚ) (times : List ℚ) (h : st.queue = []) :
    (sendCycle topic st now interval).2 =
      [Ev.speed st.messages_sent st.start_time, Ev.sleep 1] ∧
    countEv isSleep (sendCycle topic st now interval).2 = 1 ∧
    countEv isDequeue (sendCycle topic st now interval).2 = 0 ∧
    countEv isSend (sendCycle topic st now interval).2 = 0 ∧
    (sendLoop topic st (now :: times) interval).2 =
      (sendCycle topic st now interval).2 ++
        (sendLoop topic (sendCycle topic st now interval).1 times interval).2 := by
  refine ⟨?_, ?_, ?_, ?_, rfl⟩ <;> rw [sendCycle_nil topic st now interval h] <;> rfl

/-- Witness for C7 at a concrete empty-queue state. -/
theorem c7_witness :
    (sendCycle "t" ⟨0, 4, []⟩ 9 60).2 = [Ev.speed 4 0, Ev.sleep 1] ∧
    countEv isSleep (sendCycle "t" ⟨0, 4, []⟩ 9 60).2 = 1 ∧
    countEv isDequeue (sendCycle "t" ⟨0, 4, []⟩ 9 60).2 = 0 ∧
    countEv isSend (sendCycle "t" ⟨0, 4, []⟩ 9 60).2 = 0 ∧
    (sendLoop "t" ⟨0, 4, []⟩ [9] 60).2 =
      (sendCycle "t" ⟨0, 4, []⟩ 9 60).2 ++
        (sendLoop "t" (sendCycle "t" ⟨0, 4, []⟩ 9 60).1 [] 60).2 :=
  c7_empty_send_queue_sleeps_once "t" ⟨0, 4, []⟩ 9 60 [] rfl

/-- `countEv` distributes over concatenation. -/
theorem countEv_append (p : Ev → Bool) (l1 l2 : List Ev) :
    countEv p (l1 ++ l2) = countEv p l1 + countEv p l2 := by
  induction l1 with
  | nil => simp [countEv]
  | cons e tr ih =>
      simp only [List.cons_append, countEv, List.append_eq, ih, Nat.add_assoc]

/-- Enqueue events are not Speed Monitor invocations. -/
theorem countEv_speed_enqueues (tp : Nat) (msgs : List ConsumerRecord) :
    countEv isSpeed (msgs.map fun r => Ev.enqueue tp r) = 0 := by
  induction msgs with
  | nil => rfl
  | cons r tr ih => simp [List.map_cons, countEv, isSpeed, ih]

/-- A partition segment of `receive_messages` contains no Speed Monitor
invocation. -/
theorem countEv_speed_receiveSeg (ps : List (Nat × Nat))
    (pb : Nat × List ConsumerRecord) :
    countEv isSpeed (receiveSeg ps pb) = 0 := by
  simp [receiveSeg, countEv, countEv_append, countEv_speed_enqueues, isSpeed]

/-- A partition segment of `consume_messages` contains no Speed Monitor
invocation. -/
theorem countEv_speed_consumeSeg (ps : List (Nat × Nat))
    (pb : Nat × List ConsumerRecord) :
    countEv isSpeed (consumeSeg ps pb) = 0 := by
  simp [consumeSeg, countEv, countEv_append, countEv_speed_enqueues, isSpeed]

/-- No Speed Monitor invocation occurs anywhere in an inbound
`receive_messages` cycle. -/
theorem receiveCycle_no_speed (batch : List (Nat × List ConsumerRecord)) :
    countEv isSpeed (receiveCycle batch) = 0 := by
  unfold receiveCycle
  generalize consumedPositions batch = ps
  induction batch with
  | nil => rfl
  | cons pb rest ih =>
      simp [concatMap, countEv_append, countEv_speed_receiveSeg, ih]

/-- No Speed Monitor invocation occurs anywhere in an inbound
`consume_messages` cycle. -/
theorem consumeCycle_no_speed (batch : List (Nat × List ConsumerRecord)) :
    countEv isSpeed (consumeCycle batch) = 0 := by
  unfold consumeCycle
  generalize consumedPositions batch = ps
  induction batch with
  | nil => rfl
  | cons pb rest ih =>
      simp [concatMap, countEv_append, countEv_speed_consumeSeg, ih]

/-- Claim C8 as stated is false at a concrete input: an inbound cycle of
`receive_messages` on a one-record batch performs zero Speed Monitor
invocations, not one per iteration. -/
theorem c8_counterexample :
    ¬ countEv isSpeed (receiveCycle [(0, [⟨10, 5⟩])]) = 1 := by decide

/-- Claim C8 (amended): only the outbound relay loops invoke the Speed
Monitor — exactly once per cycle, with the loop's own counter and
window-start timestamp, adopting the returned pair (the new window start
is the returned time; the counter continues from the returned value,
plus one when an item was dequeued).  The inbound relay loops never
invoke it. -/
theorem c8_speed_monitor_only_outbound
    (batch : List (Nat × List ConsumerRecord)) (topic : String)
    (st : OutState) (now interval : ℚ) :
    countEv isSpeed (receiveCycle batch) = 0 ∧
    countEv isSpeed (consumeCycle batch) = 0 ∧
    countEv isSpeed (sendCycle topic st now interval).2 = 1 ∧
    (sendCycle topic st now interval).2.head? =
      some (Ev.speed st.messages_sent st.start_time) ∧
    (sendCycle topic st now interval).1.start_time =
      (log_speed st.messages_sent st.start_time st.queue topic now interval).1.1 ∧
    ((sendCycle topic st now interval).1.messages_sent =
        (log_speed st.messages_sent st.start_time st.queue topic now interval).1.2 ∨
      (sendCycle topic st now interval).1.messages_sent =
        (log_speed st.messages_sent st.start_time st.queue topic now interval).1.2 + 1) := by
  refine ⟨receiveCycle_no_speed batch, consumeCycle_no_speed batch, ?_⟩
  rcases hq : st.queue with _ | ⟨v, rest⟩
  · rw [sendCycle_nil topic st now interval hq, hq]
    exact ⟨rfl, rfl, rfl, Or.inl rfl⟩
  · rw [sendCycle_cons topic st now interval v rest hq, hq]
    exact ⟨rfl, rfl, rfl, Or.inr rfl⟩

/-- The class method `produce_messages` performs the same cycle as the
module-level `send_messages`. -/
theorem produceCycle_eq_sendCycle (topic : String) (st : OutState)
    (now interval : ℚ) :
    produceCycle topic st now interval = sendCycle topic st now interval := rfl

/-- The class method `produce_messages` performs the same loop as the
module-level `send_messages`. -/
theorem produceLoop_eq_sendLoop (topic : String) (st : OutState)
    (times : List ℚ) (interval : ℚ) :
    produceLoop topic st times interval = sendLoop topic st times interval := by
  induction times generalizing st with
  | nil => rfl
  | cons now rest ih =>
      simp only [produceLoop, sendLoop, produceCycle_eq_sendCycle, ih]

/-- `nonLog` distributes over concatenation. -/
theorem nonLog_append (l1 l2 : List Ev) :
    nonLog (l1 ++ l2) = nonLog l1 ++ nonLog l2 := by
  simp [nonLog, List.filter_append]

/-- Enqueue events survive the log filter. -/
theorem filter_enqueues (tp : Nat) (msgs : List ConsumerRecord) :
    List.filter nonLogEv (msgs.map fun r => Ev.enqueue tp r) =
      msgs.map fun r => Ev.enqueue tp r := by
  induction msgs with
  | nil => rfl
  | cons r tr ih => simp [List.map_cons, List.filter_cons, nonLogEv, ih]

/-- The non-log events of a `receive_messages` partition segment: the
enqueues, then the commit. -/
theorem nonLog_receiveSeg (ps : List (Nat × Nat))
    (pb : Nat × List ConsumerRecord) :
    nonLog (receiveSeg ps pb) =
      (pb.2.map fun r => Ev.enqueue pb.1 r) ++ [Ev.commit ps] := by
  simp [receiveSeg, nonLog, List.filter_cons, List.filter_append, nonLogEv,
    filter_enqueues]

/-- The non-log events of a `consume_messages` partition segment: the
enqueues, then the commit — the same as for `receive_messages`. -/
theorem nonLog_consumeSeg (ps : List (Nat × Nat))
    (pb : Nat × List ConsumerRecord) :
    nonLog (consumeSeg ps pb) =
      (pb.2.map fun r => Ev.enqueue pb.1 r) ++ [Ev.commit ps] := by
  simp [consumeSeg, nonLog, List.filter_cons, List.filter_append, nonLogEv,
    filter_enqueues]

/-- The inbound cycles of `consume_messages` and `receive_messages`
agree on all non-log events. -/
theorem nonLog_consumeCycle_eq (batch : List (Nat × List ConsumerRecord)) :
    nonLog (consumeCycle batch) = nonLog (receiveCycle batch) := by
  unfold consumeCycle receiveCycle
  generalize consumedPositions batch = ps
  induction batch with
  | nil => rfl
  | cons pb rest ih =>
      simp only [concatMap, nonLog_append, ih, nonLog_receiveSeg,
        nonLog_consumeSeg]

/-- The inbound loops of `consume_messages` and `receive_messages` agree
on all non-log events over any schedule of polls. -/
theorem nonLog_consumeLoop_eq
    (polls : List (List (Nat × List ConsumerRecord))) :
    nonLog (consumeLoop polls) = nonLog (receiveLoop polls) := by
  induction polls with
  | nil => rfl
  | cons b rest ih =>
      simp only [consumeLoop, receiveLoop, concatMap, nonLog_append,
        nonLog_consumeCycle_eq, ih]
      simp only [consumeLoop, receiveLoop] at ih
      rw [ih]

/-- Claim C9: the module-level relay functions and the engine's class
methods implement the same algorithm — `produce_messages` is equal to
`send_messages` cycle-for-cycle and over whole loops, and
`consume_messages` agrees with `receive_messages` on every non-log event
(their broker commits and queue operations coincide; only the order and
content of log-sink lines differ). -/
theorem c9_module_and_class_relays_equivalent :
    (∀ (topic : String) (st : OutState) (now interval : ℚ),
        produceCycle topic st now interval = sendCycle topic st now interval) ∧
    (∀ (topic : String) (st : OutState) (times : List ℚ) (interval : ℚ),
        produceLoop topic st times interval = sendLoop topic st times interval) ∧
    (∀ batch, nonLog (consumeCycle batch) = nonLog (receiveCycle batch)) ∧
    (∀ polls, nonLog (consumeLoop polls) = nonLog (receiveLoop polls)) :=
  ⟨produceCycle_eq_sendCycle, produceLoop_eq_sendLoop,
    nonLog_consumeCycle_eq, nonLog_consumeLoop_eq⟩
